import Mathlib

/-!
Verification of the `bench_api.h` RTOS micro-benchmark abstraction contract.

The repository ships the contract header `src/bench_api.h`; the operations it
declares are implemented by backend porting layers (Zephyr / FreeRTOS) that are
not part of this tree.  Each operation below is therefore a shallow embedding
modelled from the specification document, with the two boundary outcome codes
taken verbatim from the header.
-/

namespace Bench

/-- From `src/bench_api.h` line 6: `#define BENCH_SUCCESS 0`. -/
def BENCH_SUCCESS : Nat := 0

/-- From `src/bench_api.h` line 7: `#define BENCH_ERROR 1`. -/
def BENCH_ERROR : Nat := 1

/-- Modelled from the spec: the internal error taxonomy of section 7
(`InvalidHandle`, `DuplicateHandle`, `InvalidState`, `InvalidArgument`,
`ResourceExhausted`, `NotOwner`); the backend implementations holding these
kinds are not under `src/`. -/
inductive ErrKind where
  | invalidHandle
  | duplicateHandle
  | invalidState
  | invalidArgument
  | resourceExhausted
  | notOwner
  deriving DecidableEq, Repr

/-- Modelled from the spec: every operation of the contract surfaces a
two-valued outcome at the boundary; richer error kinds stay internal. -/
inductive Outcome where
  | ok
  | err (k : ErrKind)
  deriving DecidableEq, Repr

/-- The integer code an outcome surfaces across the boundary:
`BENCH_SUCCESS` or `BENCH_ERROR`, the only two values of the contract. -/
def Outcome.code : Outcome → Nat
  | .ok => BENCH_SUCCESS
  | .err _ => BENCH_ERROR

/-! ## Semaphores -/

/-- Modelled from the spec: a counting semaphore, attributes current count and
maximum count (section 3).  The backing object lives in the backend porting
layers, absent from `src/`.  The count is carried as an integer so that the
non-negativity half of the bound invariant is a genuine statement. -/
structure Semaphore where
  count : Int
  maxCount : Int
  deriving DecidableEq, Repr

/-- Modelled from the spec: `bench_sem_create(id, initial, max)` initializes a
semaphore and fails with `InvalidArgument` if `initial > max`; on failure no
usable semaphore is left behind.  Returns the created object (if any) together
with the outcome. -/
def bench_sem_create (initial maximum : Int) : Option Semaphore × Outcome :=
  if initial > maximum then
    (none, .err .invalidArgument)
  else
    (some ⟨initial, maximum⟩, .ok)

/-- Modelled from the spec: `bench_sem_give(id)` increments the count by one,
saturating at the maximum — giving an already-saturated semaphore is a no-op,
not an error. -/
def bench_sem_give (s : Semaphore) : Semaphore :=
  if s.count < s.maxCount then { s with count := s.count + 1 } else s

/-- Modelled from the spec: `bench_sem_take(id)` blocks until the count is
positive, then decrements it and returns `BENCH_SUCCESS`.  In this sequential
embedding a take observed while the count is zero is still blocked, so the
state is unchanged at that observation point. -/
def bench_sem_take (s : Semaphore) : Semaphore × Outcome :=
  if s.count > 0 then ({ s with count := s.count - 1 }, .ok) else (s, .ok)

/-- A request issued against one semaphore. -/
inductive SemOp where
  | give
  | take
  deriving DecidableEq, Repr

/-- One observed step of a semaphore under a request. -/
def semStep (s : Semaphore) : SemOp → Semaphore
  | .give => bench_sem_give s
  | .take => (bench_sem_take s).1

/-- The semaphore state after an observed sequence of give/take requests. -/
def semRun (s : Semaphore) (ops : List SemOp) : Semaphore :=
  ops.foldl semStep s

theorem semStep_maxCount (s : Semaphore) (op : SemOp) :
    (semStep s op).maxCount = s.maxCount := by
  cases op <;> simp only [semStep, bench_sem_give, bench_sem_take] <;>
    split <;> rfl

theorem semStep_bound (s : Semaphore) (op : SemOp)
    (h0 : 0 ≤ s.count) (h1 : s.count ≤ s.maxCount) :
    0 ≤ (semStep s op).count ∧ (semStep s op).count ≤ (semStep s op).maxCount := by
  rw [semStep_maxCount]
  cases op <;> simp only [semStep, bench_sem_give, bench_sem_take] <;>
    split <;> (try simp) <;> omega

theorem semRun_bound (ops : List SemOp) (s : Semaphore)
    (h0 : 0 ≤ s.count) (h1 : s.count ≤ s.maxCount) :
    0 ≤ (semRun s ops).count ∧ (semRun s ops).count ≤ s.maxCount := by
  induction ops generalizing s with
  | nil => exact ⟨h0, h1⟩
  | cons op rest ih =>
    have hstep := semStep_bound s op h0 h1
    have hmax := semStep_maxCount s op
    have := ih (semStep s op) hstep.1 (hmax ▸ hstep.2)
    simpa [semRun, hmax] using this

/-! ## Thread lifecycle -/

/-- Modelled from the spec: the lifecycle states of section 4.2,
`Uninitialized → Created → Ready ⇄ Suspended`, with `Aborted` terminal.
A running thread is a ready thread chosen by the scheduler, so `ready`
covers both Ready and Running at this level. -/
inductive ThreadState where
  | uninitialized
  | created
  | ready
  | suspended
  | aborted
  deriving DecidableEq, Repr

/-- Modelled from the spec: the per-thread control structure the backend
allocates — lifecycle state, recorded priority, and (for the
create-before-schedule property) the number of times entry-function code has
executed.  The real structure lives in the backend porting layers. -/
structure Thread where
  state : ThreadState
  prio : Int
  entryRuns : Nat
  deriving DecidableEq, Repr

/-- A thread before any contract call touches it. -/
def Thread.fresh : Thread :=
  { state := .uninitialized, prio := 0, entryRuns := 0 }

/-- Modelled from the spec: `bench_thread_create` allocates the control
structure, records entry point and priority, and must not make the thread
schedulable; fails with `DuplicateHandle` if the handle is already live. -/
def bench_thread_create (prio : Int) (t : Thread) : Thread × Outcome :=
  match t.state with
  | .uninitialized => ({ t with state := .created, prio := prio }, .ok)
  | _ => (t, .err .duplicateHandle)

/-- Modelled from the spec: `bench_thread_start` transitions `Created → Ready`
by enqueuing the thread for its first execution; benign no-op if the thread is
already started; fails with `InvalidState` on an `Aborted` thread and with
`InvalidHandle` on a handle never created. -/
def bench_thread_start (t : Thread) : Thread × Outcome :=
  match t.state with
  | .created => ({ t with state := .ready }, .ok)
  | .ready => (t, .ok)
  | .suspended => (t, .ok)
  | .aborted => (t, .err .invalidState)
  | .uninitialized => (t, .err .invalidHandle)

/-- Modelled from the spec: `bench_thread_suspend` transitions
`Ready/Running → Suspended`; `InvalidState` otherwise. -/
def bench_thread_suspend (t : Thread) : Thread × Outcome :=
  match t.state with
  | .ready => ({ t with state := .suspended }, .ok)
  | .aborted => (t, .err .invalidState)
  | .uninitialized => (t, .err .invalidHandle)
  | _ => (t, .err .invalidState)

/-- Modelled from the spec: `bench_thread_resume` transitions
`Suspended → Ready`; fails with `InvalidState` if the thread was never
suspended. -/
def bench_thread_resume (t : Thread) : Thread × Outcome :=
  match t.state with
  | .suspended => ({ t with state := .ready }, .ok)
  | .uninitialized => (t, .err .invalidHandle)
  | _ => (t, .err .invalidState)

/-- Modelled from the spec: `bench_thread_abort` immediately terminates the
thread, transitioning any non-`Uninitialized` state to `Aborted`. -/
def bench_thread_abort (t : Thread) : Thread × Outcome :=
  match t.state with
  | .uninitialized => (t, .err .invalidHandle)
  | _ => ({ t with state := .aborted }, .ok)

/-- The scheduler-visible events a single thread can experience.  `execStep`
is the scheduler dispatching the thread to run a slice of its entry function,
which the preemptive priority scheduler of section 5 does only for a
schedulable (ready) thread. -/
inductive ThreadEv where
  | create (prio : Int)
  | start
  | suspend
  | resume
  | abort
  | execStep
  deriving DecidableEq, Repr

/-- One step of a thread under a scheduler-visible event. -/
def threadStep (t : Thread) : ThreadEv → Thread
  | .create p => (bench_thread_create p t).1
  | .start => (bench_thread_start t).1
  | .suspend => (bench_thread_suspend t).1
  | .resume => (bench_thread_resume t).1
  | .abort => (bench_thread_abort t).1
  | .execStep =>
      if t.state = .ready then { t with entryRuns := t.entryRuns + 1 } else t

/-- The thread after a sequence of scheduler-visible events. -/
def threadRun (t : Thread) (evs : List ThreadEv) : Thread :=
  evs.foldl threadStep t

theorem threadStep_entryRuns_of_not_ready (t : Thread) (ev : ThreadEv)
    (h : t.state ≠ .ready) : (threadStep t ev).entryRuns = t.entryRuns := by
  cases ev <;>
    simp only [threadStep, bench_thread_create, bench_thread_start,
      bench_thread_suspend, bench_thread_resume, bench_thread_abort] <;>
    (split <;> simp_all)

/-- Without a `start` event, a created (not yet started) thread never becomes
ready: it can only stay `created` or be aborted. -/
theorem threadRun_not_ready_of_no_start (evs : List ThreadEv) (t : Thread)
    (hs : t.state = .created ∨ t.state = .aborted)
    (hno : ThreadEv.start ∉ evs) :
    (threadRun t evs).state = .created ∨ (threadRun t evs).state = .aborted := by
  induction evs generalizing t with
  | nil => exact hs
  | cons ev rest ih =>
    have hev : ev ≠ ThreadEv.start := by
      intro h; exact hno (h ▸ List.mem_cons_self _ _)
    have hrest : ThreadEv.start ∉ rest := fun h => hno (List.mem_cons_of_mem _ h)
    refine ih (threadStep t ev) ?_ hrest
    rcases hs with h | h <;> cases ev <;>
      simp_all [threadStep, bench_thread_create, bench_thread_start,
        bench_thread_suspend, bench_thread_resume, bench_thread_abort]

/-- Without a `start` event, a created (or aborted) thread executes no
entry-function code: its entry-execution count is frozen. -/
theorem threadRun_entryRuns_of_no_start (evs : List ThreadEv) (t : Thread)
    (hs : t.state = .created ∨ t.state = .aborted)
    (hno : ThreadEv.start ∉ evs) :
    (threadRun t evs).entryRuns = t.entryRuns := by
  induction evs generalizing t with
  | nil => rfl
  | cons ev rest ih =>
    have hev : ev ≠ ThreadEv.start := by
      intro h; exact hno (h ▸ List.mem_cons_self _ _)
    have hrest : ThreadEv.start ∉ rest := fun h => hno (List.mem_cons_of_mem _ h)
    have hstate : (threadStep t ev).state = .created ∨
        (threadStep t ev).state = .aborted := by
      rcases hs with h | h <;> cases ev <;>
        simp_all [threadStep, bench_thread_create, bench_thread_start,
          bench_thread_suspend, bench_thread_resume, bench_thread_abort]
    have hentry : (threadStep t ev).entryRuns = t.entryRuns := by
      refine threadStep_entryRuns_of_not_ready t ev ?_
      rcases hs with h | h <;> simp [h]
    have := ih (threadStep t ev) hstate hrest
    simpa [threadRun, hentry] using this

/-! ## ISR offload bridge -/

/-- Modelled from the spec: the `OffloadWorkItem` state — a single
globally-scoped slot holding one pending worker function, plus logs of which
worker functions have been invoked on the worker thread and which in interrupt
context.  Worker functions are identified abstractly by number.  The concrete
workqueue lives in the backend porting layers. -/
structure Offload where
  slot : Option Nat
  workerLog : List Nat
  irqLog : List Nat
  deriving DecidableEq, Repr

/-- The offload state after `bench_offload_setup`, before any work item is
created: empty slot, nothing invoked anywhere. -/
def Offload.setup : Offload :=
  { slot := none, workerLog := [], irqLog := [] }

/-- Modelled from the spec: `bench_offload_create_work(f)` stores exactly one
worker function in the single reusable slot; re-creating overwrites the slot
(a cell, not a queue). -/
def bench_offload_create_work (f : Nat) (o : Offload) : Offload :=
  { o with slot := some f }

/-- Modelled from the spec: `bench_offload_submit_work()` schedules the stored
function to run on the worker thread (its invocation is recorded on the worker
log, never the interrupt log); submitting before `create_work` is an
`InvalidState` programming error, not silently ignored. -/
def bench_offload_submit_work (o : Offload) : Offload × Outcome :=
  match o.slot with
  | some f => ({ o with workerLog := o.workerLog ++ [f] }, .ok)
  | none => (o, .err .invalidState)

/-- Modelled from the spec: `bench_irq_offload(routine, parameter)` runs the
provided routine synchronously in interrupt context and does not return until
the routine has completed — the state it returns is exactly the state the
routine left behind. -/
def bench_irq_offload {σ : Type} (routine : σ → σ) (st : σ) : σ :=
  routine st

/-! ## Mutexes -/

/-- Modelled from the spec: a mutual-exclusion lock, attributes lock state and
(implicit) owner thread; `none` is free. -/
structure Mutex where
  owner : Option Nat
  deriving DecidableEq, Repr

/-- Modelled from the spec: `bench_mutex_create(id)` creates a mutex, free. -/
def bench_mutex_create : Mutex × Outcome :=
  ({ owner := none }, .ok)

/-- Modelled from the spec: `bench_mutex_lock(id)` blocks until acquired; in
this sequential embedding a lock observed while another thread holds the mutex
is still blocked, so the state is unchanged at that observation point. -/
def bench_mutex_lock (tid : Nat) (m : Mutex) : Mutex × Outcome :=
  match m.owner with
  | none => ({ owner := some tid }, .ok)
  | some _ => (m, .ok)

/-- Modelled from the spec: `bench_mutex_unlock(id)` fails with `NotOwner` if
the calling thread does not currently hold the mutex. -/
def bench_mutex_unlock (tid : Nat) (m : Mutex) : Mutex × Outcome :=
  match m.owner with
  | some o => if o = tid then ({ owner := none }, .ok) else (m, .err .notOwner)
  | none => (m, .err .notOwner)

/-! ## Timing subsystem -/

/-- Nanoseconds per second, the unit factor of `cycles_to_ns`. -/
def NSEC_PER_SEC : Nat := 1000000000

/-- Modelled from the spec: `bench_timing_cycles_get(start, end)` returns
`end - start` in counter units, handling wraparound of the `w`-bit hardware
up-counter internally so the result is non-negative for a well-ordered
pair. -/
def bench_timing_cycles_get (w tStart tEnd : Nat) : Nat :=
  (tEnd + 2 ^ w - tStart) % 2 ^ w

/-- Modelled from the spec: the snapshot the hardware counter produces `e`
ticks after it read `tStart`, wrapping at the counter width. -/
def counterAfter (w tStart e : Nat) : Nat :=
  (tStart + e) % 2 ^ w

/-- Modelled from the spec: a call to `bench_timing_cycles_get` through its
two snapshot pointers — the memory maps addresses to stored `bench_time_t`
values; the call reads the two snapshots and yields the cycle count, writing
nothing. -/
def bench_timing_cycles_get_call (w : Nat) (mem : Nat → Nat)
    (pStart pEnd : Nat) : (Nat → Nat) × Nat :=
  (mem, bench_timing_cycles_get w (mem pStart) (mem pEnd))

/-- Modelled from the spec: `bench_timing_cycles_to_ns(cycles)` converts
cycles to nanoseconds using the counter frequency calibrated by
`bench_timing_init`, rounding half up. -/
def bench_timing_cycles_to_ns (freq cycles : Nat) : Nat :=
  (cycles * NSEC_PER_SEC + freq / 2) / freq

theorem two_mul_div_le (q m : Nat) (hq : 0 < q) :
    2 * m / q ≤ 2 * (m / q) + 1 := by
  have hd : q * (m / q) + m % q = m := Nat.div_add_mod m q
  have hr : m % q < q := Nat.mod_lt m hq
  have key : 2 * m < (2 * (m / q) + 2) * q := by
    have h1 : 2 * m = 2 * (q * (m / q)) + 2 * (m % q) := by
      rw [← Nat.mul_add, hd]
    have h2 : (2 * (m / q) + 2) * q = 2 * (q * (m / q)) + 2 * q := by ring
    rw [h1, h2]
    exact Nat.add_lt_add_left (by omega) _
  have := (Nat.div_lt_iff_lt_mul hq).mpr key
  omega

theorem le_two_mul_div (q m : Nat) (hq : 0 < q) :
    2 * (m / q) ≤ 2 * m / q := by
  rw [Nat.le_div_iff_mul_le hq]
  calc 2 * (m / q) * q = 2 * (m / q * q) := by ring
    _ ≤ 2 * m := Nat.mul_le_mul_left 2 (Nat.div_mul_le_self m q)

theorem div_add_le_succ (q x h : Nat) (hq : 0 < q) (hh : h ≤ q) :
    (x + h) / q ≤ x / q + 1 := by
  calc (x + h) / q ≤ (x + q) / q := Nat.div_le_div_right (by omega)
    _ = x / q + 1 := Nat.add_div_right x hq

theorem cycles_to_ns_linear_bounds (freq c : Nat) (hf : 0 < freq) :
    bench_timing_cycles_to_ns freq (2 * c) ≤
      2 * bench_timing_cycles_to_ns freq c + 1 ∧
    2 * bench_timing_cycles_to_ns freq c ≤
      bench_timing_cycles_to_ns freq (2 * c) + 1 := by
  have hmul : 2 * c * NSEC_PER_SEC = 2 * (c * NSEC_PER_SEC) := by ring
  have hh : freq / 2 ≤ freq := Nat.div_le_self freq 2
  constructor
  · calc bench_timing_cycles_to_ns freq (2 * c)
        = (2 * (c * NSEC_PER_SEC) + freq / 2) / freq := by
          rw [bench_timing_cycles_to_ns, hmul]
      _ ≤ 2 * (c * NSEC_PER_SEC + freq / 2) / freq :=
          Nat.div_le_div_right (by omega)
      _ ≤ 2 * ((c * NSEC_PER_SEC + freq / 2) / freq) + 1 :=
          two_mul_div_le freq _ hf
      _ = 2 * bench_timing_cycles_to_ns freq c + 1 := by
          rw [bench_timing_cycles_to_ns]
  · calc 2 * bench_timing_cycles_to_ns freq c
        = 2 * ((c * NSEC_PER_SEC + freq / 2) / freq) := by
          rw [bench_timing_cycles_to_ns]
      _ ≤ 2 * (c * NSEC_PER_SEC + freq / 2) / freq :=
          le_two_mul_div freq _ hf
      _ ≤ (2 * (c * NSEC_PER_SEC) + freq / 2 + freq / 2) / freq :=
          Nat.div_le_div_right (by omega)
      _ ≤ (2 * (c * NSEC_PER_SEC) + freq / 2) / freq + 1 :=
          div_add_le_succ freq _ _ hf hh
      _ = bench_timing_cycles_to_ns freq (2 * c) + 1 := by
          rw [bench_timing_cycles_to_ns, hmul]

theorem cycles_get_of_counterAfter (w tStart e : Nat)
    (hs : tStart < 2 ^ w) (he : e < 2 ^ w) :
    bench_timing_cycles_get w tStart (counterAfter w tStart e) = e := by
  have hM : 0 < 2 ^ w := pow_pos (by norm_num) w
  simp only [bench_timing_cycles_get, counterAfter]
  by_cases hlt : tStart + e < 2 ^ w
  · rw [Nat.mod_eq_of_lt hlt]
    have h1 : tStart + e + 2 ^ w - tStart = e + 2 ^ w := by omega
    rw [h1, Nat.add_mod_right, Nat.mod_eq_of_lt he]
  · push_neg at hlt
    have h2 : (tStart + e) % 2 ^ w = tStart + e - 2 ^ w := by
      rw [Nat.mod_eq_sub_mod hlt, Nat.mod_eq_of_lt (by omega)]
    rw [h2]
    have h3 : tStart + e - 2 ^ w + 2 ^ w - tStart = e := by omega
    rw [h3, Nat.mod_eq_of_lt he]

/-! ## The claims -/

/-- C1: for every semaphore created with `initial_count ≤ maximum_count`
(a successful `bench_sem_create`), after any sequence of give/take requests —
hence at every observed point, since the sequence is arbitrary — the count
stays within `[0, maximum_count]`: give saturates at the maximum and take
decrements only when the count is positive. -/
theorem sem_count_stays_bounded (initial maximum : Int) (h0 : 0 ≤ initial)
    (s : Semaphore) (hc : (bench_sem_create initial maximum).1 = some s)
    (ops : List SemOp) :
    0 ≤ (semRun s ops).count ∧ (semRun s ops).count ≤ s.maxCount := by
  rw [bench_sem_create] at hc
  split at hc
  · simp at hc
  · simp only [Option.some.injEq] at hc
    subst hc
    exact semRun_bound ops _ h0 (by simpa using by omega)

theorem sem_count_stays_bounded_witness :
    (0 : Int) ≤ 1 ∧
    ((bench_sem_create 1 2).1 = some ⟨1, 2⟩) ∧
    (0 ≤ (semRun ⟨1, 2⟩ [.give, .give, .give, .take, .take, .take]).count ∧
      (semRun ⟨1, 2⟩ [.give, .give, .give, .take, .take, .take]).count ≤
        (Semaphore.mk 1 2).maxCount) :=
  ⟨by decide, by decide,
    sem_count_stays_bounded 1 2 (by decide) ⟨1, 2⟩ (by decide)
      [.give, .give, .give, .take, .take, .take]⟩

/-- C2: every operation of the contract surfaces a two-valued outcome at the
boundary — the code of any `Outcome` is `BENCH_SUCCESS` or `BENCH_ERROR` — and
each fallible operation returns that outcome directly to its caller as part of
its result, not through any other channel or global state. -/
theorem operations_two_valued_outcome :
    (∀ o : Outcome, o.code = BENCH_SUCCESS ∨ o.code = BENCH_ERROR) ∧
    (∀ i m : Int, (bench_sem_create i m).2.code = BENCH_SUCCESS ∨
      (bench_sem_create i m).2.code = BENCH_ERROR) ∧
    (∀ s : Semaphore, (bench_sem_take s).2.code = BENCH_SUCCESS ∨
      (bench_sem_take s).2.code = BENCH_ERROR) ∧
    (∀ (p : Int) (t : Thread), (bench_thread_create p t).2.code = BENCH_SUCCESS ∨
      (bench_thread_create p t).2.code = BENCH_ERROR) ∧
    (∀ t : Thread, (bench_thread_start t).2.code = BENCH_SUCCESS ∨
      (bench_thread_start t).2.code = BENCH_ERROR) ∧
    (∀ t : Thread, (bench_thread_resume t).2.code = BENCH_SUCCESS ∨
      (bench_thread_resume t).2.code = BENCH_ERROR) ∧
    (∀ t : Thread, (bench_thread_suspend t).2.code = BENCH_SUCCESS ∨
      (bench_thread_suspend t).2.code = BENCH_ERROR) ∧
    (∀ t : Thread, (bench_thread_abort t).2.code = BENCH_SUCCESS ∨
      (bench_thread_abort t).2.code = BENCH_ERROR) ∧
    (∀ o : Offload, (bench_offload_submit_work o).2.code = BENCH_SUCCESS ∨
      (bench_offload_submit_work o).2.code = BENCH_ERROR) ∧
    (bench_mutex_create.2.code = BENCH_SUCCESS ∨
      bench_mutex_create.2.code = BENCH_ERROR) ∧
    (∀ (tid : Nat) (m : Mutex), (bench_mutex_lock tid m).2.code = BENCH_SUCCESS ∨
      (bench_mutex_lock tid m).2.code = BENCH_ERROR) ∧
    (∀ (tid : Nat) (m : Mutex), (bench_mutex_unlock tid m).2.code = BENCH_SUCCESS ∨
      (bench_mutex_unlock tid m).2.code = BENCH_ERROR) := by
  have base : ∀ o : Outcome, o.code = BENCH_SUCCESS ∨ o.code = BENCH_ERROR := by
    intro o; cases o <;> simp [Outcome.code]
  exact ⟨base, fun _ _ => base _, fun _ => base _, fun _ _ => base _,
    fun _ => base _, fun _ => base _, fun _ => base _, fun _ => base _,
    fun _ => base _, base _, fun _ _ => base _, fun _ _ => base _⟩

/-- C3: no entry-function code executes between `create` and the matching
`start`: after `bench_thread_create` on a fresh handle, any sequence of
scheduler-visible events containing no `start` leaves the entry-execution
count unchanged — the created thread is never schedulable. -/
theorem create_before_schedule (prio : Int) (t : Thread)
    (ht : t.state = .uninitialized) (evs : List ThreadEv)
    (hno : ThreadEv.start ∉ evs) :
    (threadRun (bench_thread_create prio t).1 evs).entryRuns = t.entryRuns := by
  have hcreated : (bench_thread_create prio t).1 =
      { t with state := .created, prio := prio } := by
    rw [bench_thread_create, ht]
  rw [hcreated]
  exact threadRun_entryRuns_of_no_start evs _ (Or.inl rfl) hno

theorem create_before_schedule_witness :
    Thread.fresh.state = ThreadState.uninitialized ∧
    ThreadEv.start ∉
      [ThreadEv.execStep, .suspend, .resume, .execStep, .abort, .execStep] ∧
    (threadRun (bench_thread_create 5 Thread.fresh).1
        [ThreadEv.execStep, .suspend, .resume, .execStep, .abort, .execStep]).entryRuns =
      Thread.fresh.entryRuns :=
  ⟨rfl, by decide,
    create_before_schedule 5 Thread.fresh rfl
      [ThreadEv.execStep, .suspend, .resume, .execStep, .abort, .execStep]
      (by decide)⟩

/-- C4: `bench_irq_offload(f, arg)` runs `f` synchronously and returns only
after `f` has completed: the state it hands back is exactly `f`'s final state;
in particular, when `f` gives a non-saturated semaphore, the count already
reflects the give when `bench_irq_offload` returns. -/
theorem irq_offload_synchronous :
    (∀ {σ : Type} (f : σ → σ) (st : σ), bench_irq_offload f st = f st) ∧
    (∀ s : Semaphore, s.count < s.maxCount →
      (bench_irq_offload bench_sem_give s).count = s.count + 1) := by
  refine ⟨fun f st => rfl, fun s hlt => ?_⟩
  simp [bench_irq_offload, bench_sem_give, hlt]

theorem irq_offload_synchronous_witness :
    bench_irq_offload bench_sem_give ⟨0, 1⟩ = bench_sem_give ⟨0, 1⟩ ∧
    ((0 : Int) < 1 ∧
      (bench_irq_offload bench_sem_give (Semaphore.mk 0 1)).count = 0 + 1) :=
  ⟨irq_offload_synchronous.1 bench_sem_give ⟨0, 1⟩,
    by decide, irq_offload_synchronous.2 ⟨0, 1⟩ (by decide)⟩

/-- C5: the offload work item is a single reusable slot: re-creating
overwrites the stored function (not a queue), and after `create_work f` then
`submit_work` from the set-up state, `f` is invoked exactly once, on the
worker thread and never in interrupt context. -/
theorem offload_single_slot (f g : Nat) (o : Offload) :
    (bench_offload_create_work g (bench_offload_create_work f o)).slot = some g ∧
    ((bench_offload_submit_work
        (bench_offload_create_work f Offload.setup)).1).workerLog.count f = 1 ∧
    ((bench_offload_submit_work
        (bench_offload_create_work f Offload.setup)).1).irqLog.count f = 0 := by
  refine ⟨rfl, ?_, rfl⟩
  simp [bench_offload_create_work, bench_offload_submit_work, Offload.setup]

/-- C6: for a well-ordered pair of snapshots — the end snapshot taken `e`
counter ticks after the start, with both the start value and the elapsed count
inside one wrap period of the `w`-bit counter — `bench_timing_cycles_get`
returns exactly `e`, handling wraparound internally, and the result is
non-negative. -/
theorem cycles_get_wraparound_nonneg (w tStart e : Nat)
    (hs : tStart < 2 ^ w) (he : e < 2 ^ w) :
    bench_timing_cycles_get w tStart (counterAfter w tStart e) = e ∧
    0 ≤ (bench_timing_cycles_get w tStart (counterAfter w tStart e) : Int) :=
  ⟨cycles_get_of_counterAfter w tStart e hs he, Int.natCast_nonneg _⟩

theorem cycles_get_wraparound_nonneg_witness :
    12 < 2 ^ 4 ∧ 7 < 2 ^ 4 ∧
    (bench_timing_cycles_get 4 12 (counterAfter 4 12 7) = 7 ∧
      0 ≤ (bench_timing_cycles_get 4 12 (counterAfter 4 12 7) : Int)) :=
  ⟨by decide, by decide, cycles_get_wraparound_nonneg 4 12 7 (by decide) (by decide)⟩

/-- C7: `bench_timing_cycles_to_ns` is linear within rounding tolerance: for
every calibrated frequency and cycle count, converting `2c` differs from twice
the conversion of `c` by at most one nanosecond — the slack forced by
round-half-up rounding. -/
theorem cycles_to_ns_linearity (freq c : Nat) (hf : 0 < freq) :
    |(bench_timing_cycles_to_ns freq (2 * c) : Int) -
      2 * (bench_timing_cycles_to_ns freq c : Int)| ≤ 1 := by
  have h := cycles_to_ns_linear_bounds freq c hf
  rw [abs_le]
  omega

theorem cycles_to_ns_linearity_witness :
    0 < 3 ∧
    |(bench_timing_cycles_to_ns 3 (2 * 1) : Int) -
      2 * (bench_timing_cycles_to_ns 3 1 : Int)| ≤ 1 :=
  ⟨by decide, cycles_to_ns_linearity 3 1 (by decide)⟩

/-- C8: `bench_thread_start` transitions a `Created` thread to `Ready`
(making it schedulable for its first execution), is a benign no-op on a
thread already started (ready or suspended), and fails with `InvalidState` on
an `Aborted` thread, leaving it unchanged. -/
theorem thread_start_behavior (t : Thread) :
    (t.state = .created →
      bench_thread_start t = ({ t with state := .ready }, .ok)) ∧
    (t.state = .ready ∨ t.state = .suspended →
      bench_thread_start t = (t, .ok)) ∧
    (t.state = .aborted →
      bench_thread_start t = (t, .err .invalidState)) := by
  refine ⟨fun h => ?_, fun h => ?_, fun h => ?_⟩
  · rw [bench_thread_start, h]
  · rcases h with h | h <;> rw [bench_thread_start, h]
  · rw [bench_thread_start, h]

theorem thread_start_behavior_witness :
    bench_thread_start ⟨.created, 5, 0⟩ = (⟨.ready, 5, 0⟩, .ok) ∧
    bench_thread_start ⟨.ready, 5, 0⟩ = (⟨.ready, 5, 0⟩, .ok) ∧
    bench_thread_start ⟨.aborted, 5, 0⟩ =
      (⟨.aborted, 5, 0⟩, .err .invalidState) :=
  ⟨(thread_start_behavior _).1 rfl, (thread_start_behavior _).2.1 (Or.inl rfl),
    (thread_start_behavior _).2.2 rfl⟩

/-- C9: `bench_sem_create` with `initial > maximum` fails with
`InvalidArgument` and leaves no usable semaphore behind. -/
theorem sem_create_rejects_initial_gt_max (initial maximum : Int)
    (h : initial > maximum) :
    bench_sem_create initial maximum = (none, .err .invalidArgument) := by
  rw [bench_sem_create, if_pos h]

theorem sem_create_rejects_initial_gt_max_witness :
    (2 : Int) > 1 ∧ bench_sem_create 2 1 = (none, .err .invalidArgument) :=
  ⟨by decide, sem_create_rejects_initial_gt_max 2 1 (by decide)⟩

/-- C10: `bench_timing_cycles_get` does not modify the snapshots it receives
by pointer: the memory after the call agrees with the memory before it at
every address, and the call's only effect is its returned cycle count. -/
theorem cycles_get_writes_nothing (w : Nat) (mem : Nat → Nat)
    (pStart pEnd a : Nat) :
    (bench_timing_cycles_get_call w mem pStart pEnd).1 a = mem a ∧
    (bench_timing_cycles_get_call w mem pStart pEnd).2 =
      bench_timing_cycles_get w (mem pStart) (mem pEnd) :=
  ⟨rfl, rfl⟩

end Bench
